import Mathlib

/-!
Verification of the parameter-vector helpers of a robot dynamics
identification module (`src/identification/helpers.py`).

The module works on a flat vector of per-link rigid-body parameters
(mass, first mass moment, vectorized inertia tensor) followed by optional
joint friction blocks.  We embed the vector as a total function `ℕ → ℚ`
together with the explicit sizes that the python code receives from its
`model` object: `nm` stands for `model.num_model_params` (the size of the
link inertial block), `n` for `len(params)`, `nd` for `model.num_dofs`.

The rigid-body primitive (iDynTree `SpatialInertia`) and the numerical
Cholesky decomposition (`np.linalg.cholesky`) are external libraries, not
part of the repository; they are modelled from the specification of the
module: the parallel-axis translation of a rotational inertia tensor
between the frame origin and the center of mass, and success of the
Cholesky decomposition of a symmetric 3x3 matrix, which holds exactly when
the matrix is positive definite (equivalently, by the Sylvester criterion,
when its three leading principal minors are positive; that equivalence is
proved below as `choleskyOk_iff_posDef`).
-/

namespace Helpers

/-- 3x3 rational matrices, used for link rotational inertia tensors. -/
abbrev Mat3 := Fin 3 → Fin 3 → ℚ

/-- `ParamHelpers.invvech` (helpers.py lines 115-140): build the full
symmetric 3x3 inertia tensor from the vector of the 6 values
`(xx, xy, xz, yy, yz, zz)`; the off-diagonal values are mirrored. -/
def invvech (p : Fin 6 → ℚ) : Mat3 :=
  ![![p 0, p 1, p 2], ![p 1, p 3, p 4], ![p 2, p 4, p 5]]

/-- `ParamHelpers.vech` (lines 142-151): vectorization of a symmetric 3x3
matrix, reading the upper triangle including the diagonal. -/
def vech (M : Mat3) : Fin 6 → ℚ :=
  ![M 0 0, M 0 1, M 0 2, M 1 1, M 1 2, M 2 2]

/-- The entries of `vech` as a function on plain naturals (junk value `0`
beyond index 5); used for the index computations of the conversion loops. -/
def vechAt (M : Mat3) : ℕ → ℚ
  | 0 => M 0 0
  | 1 => M 0 1
  | 2 => M 0 2
  | 3 => M 1 1
  | 4 => M 1 2
  | 5 => M 2 2
  | _ => 0

/-- Euclidean inner product on rational 3-vectors. -/
def dotQ (x y : Fin 3 → ℚ) : ℚ :=
  x 0 * y 0 + x 1 * y 1 + x 2 * y 2

/-- Matrix-vector product for `Mat3`. -/
def mulVec3 (A : Mat3) (x : Fin 3 → ℚ) : Fin 3 → ℚ :=
  fun r => A r 0 * x 0 + A r 1 * x 1 + A r 2 * x 2

/-- Quadratic form of a `Mat3`. -/
def qf (A : Mat3) (x : Fin 3 → ℚ) : ℚ :=
  dotQ x (mulVec3 A x)

/-- Positive definiteness of a `Mat3`, stated with the quadratic form. -/
def PosDef3 (A : Mat3) : Prop :=
  ∀ x : Fin 3 → ℚ, x ≠ 0 → 0 < qf A x

/-- Symmetry of a `Mat3`. -/
def Sym3 (A : Mat3) : Prop :=
  A 0 1 = A 1 0 ∧ A 0 2 = A 2 0 ∧ A 1 2 = A 2 1

/-- Determinant of a `Mat3` read from the lower triangle only (the way
`np.linalg.cholesky` reads its argument). -/
def det3L (A : Mat3) : ℚ :=
  A 0 0 * (A 1 1 * A 2 2 - A 2 1 * A 2 1) - A 1 0 * (A 1 0 * A 2 2 - A 2 1 * A 2 0) +
    A 2 0 * (A 1 0 * A 2 1 - A 1 1 * A 2 0)

/-- Determinant of a `Mat3`. -/
def det3 (A : Mat3) : ℚ :=
  A 0 0 * (A 1 1 * A 2 2 - A 1 2 * A 2 1) - A 0 1 * (A 1 0 * A 2 2 - A 1 2 * A 2 0) +
    A 0 2 * (A 1 0 * A 2 1 - A 1 1 * A 2 0)

/-- Modelled from the spec: success of `np.linalg.cholesky` on a 3x3 matrix
(helpers.py line 94).  The decomposition reads the lower triangle and
succeeds exactly when every pivot is positive, i.e. exactly when the three
leading principal minors are positive (Sylvester criterion; the equivalence
with positive definiteness is proved in `choleskyOk_iff_posDef`). -/
def choleskyOk (A : Mat3) : Bool :=
  decide (0 < A 0 0) && decide (0 < A 0 0 * A 1 1 - A 1 0 * A 1 0) && decide (0 < det3L A)

/-- Positive semidefiniteness test for a symmetric 3x3 matrix: all seven
principal minors are nonnegative. -/
def psd3Ok (B : Mat3) : Bool :=
  decide (0 ≤ B 0 0) && decide (0 ≤ B 1 1) && decide (0 ≤ B 2 2) &&
    decide (0 ≤ B 0 0 * B 1 1 - B 0 1 * B 1 0) &&
    decide (0 ≤ B 0 0 * B 2 2 - B 0 2 * B 2 0) &&
    decide (0 ≤ B 1 1 * B 2 2 - B 1 2 * B 2 1) &&
    decide (0 ≤ det3 B)

/-- Modelled from the spec: the triangle inequality on the principal moments
of an inertia tensor (each eigenvalue at most the sum of the other two),
stated equivalently as positive semidefiniteness of
`trace A * 1 - 2 * A`, whose eigenvalues are `trace A - 2 * eig`. -/
def triangleOk (A : Mat3) : Bool :=
  psd3Ok (fun r s => (A 0 0 + A 1 1 + A 2 2) * (if r = s then 1 else 0) - 2 * A r s)

/-- Modelled from the spec: iDynTree `SpatialInertia.getRotationalInertiaWrtCenterOfMass`.
Given the mass, the center of mass position `c` and the rotational inertia
about the frame origin, the parallel-axis theorem gives the inertia about
the center of mass as `Io - m * (|c|^2 * 1 - c * cT)`. -/
def rotInertiaWrtCom (m : ℚ) (c : Fin 3 → ℚ) (io : Mat3) : Mat3 :=
  fun r s => io r s - m * (dotQ c c * (if r = s then 1 else 0) - c r * c s)

/-- Modelled from the spec: iDynTree `SpatialInertia.fromRotationalInertiaWrtCenterOfMass`
followed by `getRotationalInertiaWrtFrameOrigin`.  Given the mass, the
center of mass position `c` and the rotational inertia about the center of
mass, the inertia about the frame origin is `Ic + m * (|c|^2 * 1 - c * cT)`. -/
def rotInertiaWrtOrigin (m : ℚ) (c : Fin 3 → ℚ) (ic : Mat3) : Mat3 :=
  fun r s => ic r s + m * (dotQ c c * (if r = s then 1 else 0) - c r * c s)

/-- `ParamHelpers.inertiaTensorFromParams` (lines 153-160): for every link
block (stride 10, block start below `nm = num_model_params`, loop over
`range n` with `n = len(params)`) build the full tensor from the six stored
components of that block. -/
def inertiaTensorFromParams (nm n : ℕ) (params : ℕ → ℚ) : List Mat3 :=
  (List.range n).filterMap (fun i =>
    if i % 10 = 0 ∧ i < nm then
      some (invvech (fun k => params (i + 4 + ↑k)))
    else none)

/-- Modelled from the spec: iDynTree `SpatialInertia.isPhysicallyConsistent`
applied to the 10-vector `(mass, first moment, vech of inertia about the
frame origin)` of one link (lines 62-67).  Consistency demands a strictly
positive mass, a positive definite rotational inertia about the center of
mass (`c = first moment / mass`), and the triangle inequality on its
principal moments. -/
def isPhysicallyConsistentModel (p : ℕ → ℚ) : Bool :=
  if p 0 ≤ 0 then false
  else
    let c : Fin 3 → ℚ := fun k => p (1 + ↑k) / p 0
    let ic := rotInertiaWrtCom (p 0) c (invvech (fun j => p (4 + ↑j)))
    choleskyOk ic && triangleOk ic

/-- `ParamHelpers.checkPhysicalConsistency` (lines 44-68): per-link strict
physical consistency.  In gravity-only mode (and `full = false`) only the
mass entries (stride 4) are tested for positivity; otherwise each stride-10
block below `nm` is handed to the rigid-body primitive.  The returned
python dictionary `link id -> bool` is embedded as the association list of
its insertions. -/
def checkPhysicalConsistency (gravityOnly full : Bool) (numLinks nm n : ℕ)
    (params : ℕ → ℚ) : List (ℕ × Bool) :=
  if gravityOnly = true ∧ full = false then
    (List.range numLinks).map (fun i => (i, decide (0 < params (i * 4))))
  else
    (List.range n).filterMap (fun i =>
      if i % 10 = 0 ∧ i < nm then
        some (i / 10, isPhysicallyConsistentModel (fun j => params (i + j)))
      else none)

/-- `ParamHelpers.checkPhysicalConsistencyNoTriangle` (lines 70-109): the
relaxed per-link check.  In gravity-only mode (and `full = false`) only the
mass entries are tested; otherwise a link with non-positive mass is
immediately inconsistent (`continue`, the tensor is not looked at), and a
link with positive mass is consistent exactly when the Cholesky
decomposition of its tensor from `inertiaTensorFromParams` succeeds; the
`except` branch turns the failure into the boolean `False`.  Entries that
are not link blocks (in particular the friction blocks at indices `≥ nm`)
are skipped by the `else: pass` branch. -/
def checkPhysicalConsistencyNoTriangle (gravityOnly full : Bool) (numLinks nm n : ℕ)
    (params : ℕ → ℚ) : List (ℕ × Bool) :=
  if gravityOnly = true ∧ full = false then
    (List.range numLinks).map (fun i => (i, decide (0 < params (i * 4))))
  else
    let tensors := inertiaTensorFromParams nm n params
    (List.range n).filterMap (fun i =>
      if i % 10 = 0 ∧ i < nm then
        some (i / 10,
          if params i ≤ 0 then false
          else choleskyOk (tensors.getD (i / 10) (invvech (fun _ => 0))))
      else none)

/-- `ParamHelpers.paramsLink2Bary` (lines 190-223): convert every stride-10
link block whose start lies below `nm` (and below `n = len(params)`, the
loop bound) from link-frame form to barycentric form.  The mass stays; the
center of mass is the first moment divided by the mass, or `(0,0,0)` for a
link of mass exactly `0`; the six inertia entries become the rotational
inertia about the center of mass obtained from the rigid-body primitive,
fed with the mass, the just-written center of mass and the stored inertia
about the frame origin.  All other entries are untouched.  The python
function works on a copy of its argument (line 197) and returns the copy;
this definition is that returned value. -/
def paramsLink2Bary (nm n : ℕ) (params : ℕ → ℚ) : ℕ → ℚ := fun j =>
  let i := 10 * (j / 10)
  if i < nm ∧ i < n then
    let mass := params i
    let com : Fin 3 → ℚ := fun k => if mass = 0 then 0 else params (i + 1 + ↑k) / mass
    let r := j % 10
    if r = 0 then mass
    else if hr : r < 4 then com ⟨r - 1, by omega⟩
    else vechAt (rotInertiaWrtCom mass com (invvech (fun k => params (i + 4 + ↑k)))) (r - 4)
  else params j

/-- `ParamHelpers.paramsBary2Link` (lines 225-251): convert every stride-10
link block whose start lies below `nm` (and below `n`) from barycentric
form to link-frame form.  The first moment is the center of mass times the
mass and is written into slots `i+1 .. i+3` first; the python code then
builds the position `p_com` from those just-written slots, so the position
handed to the rigid-body primitive (which expects the center of mass) is
the first moment, and the six inertia entries become the rotational
inertia about the frame origin computed from the mass, that position and
the stored inertia about the center of mass.  The python function works on
a copy of its argument (line 226) and returns the copy; this definition is
that returned value. -/
def paramsBary2Link (nm n : ℕ) (params : ℕ → ℚ) : ℕ → ℚ := fun j =>
  let i := 10 * (j / 10)
  if i < nm ∧ i < n then
    let mass := params i
    let moment : Fin 3 → ℚ := fun k => params (i + 1 + ↑k) * mass
    let r := j % 10
    if r = 0 then mass
    else if hr : r < 4 then moment ⟨r - 1, by omega⟩
    else vechAt (rotInertiaWrtOrigin mass moment (invvech (fun k => params (i + 4 + ↑k)))) (r - 4)
  else params j

/-- Calling convention of `paramsLink2Bary`: the pair of the returned vector
and of the contents of the buffer the caller passed in, after the call.
Line 197 rebinds the local name to `params.copy()`, so every write of the
loop targets the copy and the buffer of the caller is left unchanged. -/
def paramsLink2BaryCall (nm n : ℕ) (params : ℕ → ℚ) : (ℕ → ℚ) × (ℕ → ℚ) :=
  (paramsLink2Bary nm n params, params)

/-- Calling convention of `paramsBary2Link`: as for `paramsLink2BaryCall`,
the copy on line 226 keeps the buffer of the caller unchanged. -/
def paramsBary2LinkCall (nm n : ℕ) (params : ℕ → ℚ) : (ℕ → ℚ) × (ℕ → ℚ) :=
  (paramsBary2Link nm n params, params)

/-- A `dynamics` element of a joint of the robot description: the two
optional attributes `friction` and `damping`. -/
structure Dyn where
  friction : Option ℚ
  damping : Option ℚ
deriving DecidableEq

/-- A `joint` element of the robot description: its name (names are
abstracted as naturals, ordered as the python string sort orders the real
names), whether its `type` attribute is `revolute`, and its optional
`dynamics` child element. -/
structure UJoint where
  name : ℕ
  revolute : Bool
  dyn : Option Dyn
deriving DecidableEq

/-- `URDFHelpers.getJointFriction` (lines 448-475): for every revolute joint
that has a `dynamics` element, record `(name, friction, damping)`, each
missing attribute defaulting to `0` (the `except KeyError` branches).  The
python dictionary is embedded as the association list in document order. -/
def getJointFriction (joints : List UJoint) : List (ℕ × ℚ × ℚ) :=
  joints.filterMap (fun j =>
    if j.revolute then
      match j.dyn with
      | some d => some (j.name, d.friction.getD 0, d.damping.getD 0)
      | none => none
    else none)

/-- Dictionary access `friction[f]` used by `addFrictionFromURDF`. -/
def frictionLookup (fr : List (ℕ × ℚ × ℚ)) (f : ℕ) : ℚ × ℚ :=
  (fr.lookup f).getD (0, 0)

/-- `ParamHelpers.addFrictionFromURDF` (lines 253-268): read the per-joint
friction values from the document, sort them by joint name, and write the
constant friction values into `params[nm : nm+nd]`.  When gravity-only
identification is off, also write the velocity-dependent values into
`params[nm+nd : nm+2*nd]`, and when symmetric velocity friction is off,
write the same values again into `params[nm+2*nd : nm+3*nd]`.  The python
function assigns into slices of the very array the caller passed (no copy
is taken) and returns `None`; this definition is the contents of the
buffer of the caller after the call. -/
def addFrictionFromURDF (gravityOnly symmetric : Bool) (nm nd : ℕ)
    (joints : List UJoint) (params : ℕ → ℚ) : ℕ → ℚ :=
  let fr := getJointFriction joints
  let names := List.insertionSort (· ≤ ·) (fr.map Prod.fst)
  let fcs := names.map (fun f => (frictionLookup fr f).1)
  let fvs := names.map (fun f => (frictionLookup fr f).2)
  fun j =>
    if nm ≤ j ∧ j < nm + nd then fcs.getD (j - nm) 0
    else if gravityOnly = false ∧ nm + nd ≤ j ∧ j < nm + 2 * nd then
      fvs.getD (j - (nm + nd)) 0
    else if gravityOnly = false ∧ symmetric = false ∧ nm + 2 * nd ≤ j ∧ j < nm + 3 * nd then
      fvs.getD (j - (nm + 2 * nd)) 0
    else params j

/-- A `link` element of the robot description, restricted to the inertial
attributes that `replaceParamsInURDF` rewrites. -/
structure ULink where
  name : ℕ
  mass : ℚ
  com : Fin 3 → ℚ
  inertia : Fin 6 → ℚ

/-- The fatal configuration error of the description write path. -/
inductive UrdfWriteError where
  | asymmetricVelFriction
deriving DecidableEq

/-- The joint loop body of `URDFHelpers.replaceParamsInURDF` (lines 309-326):
for a joint of the document whose name is in the topology, compute the
friction and damping attributes to write.  With friction identification on,
the constant friction comes from the converted vector; the damping is `0`
in gravity-only mode, the identified symmetric viscous friction in full
mode, and in the asymmetric case the python code prints a diagnostic and
calls `sys.exit(1)` (lines 320-321) — the fatal abort.  With friction
identification off both attributes are written as `0`. -/
def writeJointFriction (gravityOnly identifyFriction symmetric : Bool)
    (jointNames : List ℕ) (numLinks perLink nm nd : ℕ) (xStdBary : ℕ → ℚ)
    (j : UJoint) : Except UrdfWriteError UJoint :=
  if j.name ∈ jointNames then
    let jid := jointNames.indexOf j.name
    if identifyFriction = true then
      let fc := xStdBary (numLinks * perLink + jid)
      if gravityOnly = true then
        Except.ok { j with dyn := some ⟨some fc, some 0⟩ }
      else if symmetric = true then
        Except.ok { j with dyn := some ⟨some fc, some (xStdBary (nm + nd + jid))⟩ }
      else Except.error UrdfWriteError.asymmetricVelFriction
    else Except.ok { j with dyn := some ⟨some 0, some 0⟩ }
  else Except.ok j

/-- `URDFHelpers.replaceParamsInURDF` (lines 276-328).  The converted vector
`xStdBary` is the gravity-only stride-4 division (com moment entries
divided by the mass entry of their block, with no zero-mass guard; division
here is the total rational division) or the full `paramsLink2Bary`.  Every
link of the document whose name is in the topology gets its mass, center of
mass and (in full mode) inertia attributes overwritten; every joint of the
document whose name is in the topology gets its friction and damping
attributes written: zero when friction identification is off, else the
identified constant friction, and the identified viscous friction only
when it was identified symmetric — the asymmetric case calls `sys.exit(1)`
(line 321), which aborts the whole function before `tree.write` is
reached, so no output document exists; that abort is the `Except.error`. -/
def replaceParamsInURDF (gravityOnly identifyFriction symmetric : Bool)
    (linkNames jointNames : List ℕ) (numLinks nm nd n : ℕ)
    (links : List ULink) (joints : List UJoint) (new_params : ℕ → ℚ) :
    Except UrdfWriteError (List ULink × List UJoint) :=
  let perLink := if gravityOnly = true then 4 else 10
  let xStdBary : ℕ → ℚ :=
    if gravityOnly = true then
      fun j => if j < n ∧ j % 4 ≠ 0 then new_params j / new_params (4 * (j / 4)) else new_params j
    else paramsLink2Bary nm n new_params
  let newLinks := links.map (fun l =>
    if l.name ∈ linkNames then
      let lid := linkNames.indexOf l.name
      { l with
        mass := xStdBary (lid * perLink),
        com := fun k => xStdBary (lid * perLink + 1 + ↑k),
        inertia := fun k =>
          if gravityOnly = true then l.inertia k else xStdBary (lid * 10 + 4 + ↑k) }
    else l)
  Except.map (fun js => (newLinks, js))
    (joints.mapM
      (writeJointFriction gravityOnly identifyFriction symmetric jointNames
        numLinks perLink nm nd xStdBary))

/-- The vertex coordinates of a loaded STL mesh, one list per axis. -/
structure MeshData where
  xs : List ℚ
  ys : List ℚ
  zs : List ℚ

/-- Minimum of a coordinate list as `numpy` computes it (junk `0` on the
empty list, on which `numpy` would fail; meshes are never empty). -/
def npMin : List ℚ → ℚ
  | [] => 0
  | x :: l => l.foldl min x

/-- Maximum of a coordinate list, as `npMin`. -/
def npMax : List ℚ → ℚ
  | [] => 0
  | x :: l => l.foldl max x

/-- `URDFHelpers.getBoundingBox`, mesh branch (lines 389-407): per axis the
pair `(min * axisScale * hullScale, max * axisScale * hullScale)` of the
scaled vertex extrema, and afterwards the swap loop exchanges the two
components of every axis whose scale factor is negative. -/
def getBoundingBox (hullScale sx sy sz : ℚ) (m : MeshData) : Fin 3 → ℚ × ℚ :=
  let pre : Fin 3 → ℚ × ℚ :=
    ![(npMin m.xs * sx * hullScale, npMax m.xs * sx * hullScale),
      (npMin m.ys * sy * hullScale, npMax m.ys * sy * hullScale),
      (npMin m.zs * sz * hullScale, npMax m.zs * sz * hullScale)]
  let sc : Fin 3 → ℚ := ![sx, sy, sz]
  fun a => if sc a < 0 then ((pre a).2, (pre a).1) else pre a

/-- An IEEE-754 value as produced by the numpy float operations: a finite
value (idealized as a rational), a NaN, or a signed infinity. -/
inductive FVal where
  | fin : ℚ → FVal
  | nan : FVal
  | pinf : FVal
  | ninf : FVal
deriving DecidableEq

/-- Finiteness of an `FVal`. -/
def FVal.isFinite : FVal → Bool
  | FVal.fin _ => true
  | _ => false

/-- Modelled IEEE-754 division as numpy performs it on array elements:
division by zero yields NaN for a zero numerator and a signed infinity
otherwise — a warning is printed but no exception is raised.  Any
non-finite operand yields NaN (sufficient here: the dividend patterns with
infinite divisors do not occur in the modelled code path). -/
def fdiv : FVal → FVal → FVal
  | FVal.fin a, FVal.fin b =>
    if b = 0 then (if a = 0 then FVal.nan else if 0 < a then FVal.pinf else FVal.ninf)
    else FVal.fin (a / b)
  | _, _ => FVal.nan

/-- The gravity-only barycentric conversion of `replaceParamsInURDF`
(lines 281-284), under the IEEE semantics of numpy: every entry of a
stride-4 block except the mass entry is divided in place by the mass entry
of its block, with no zero-mass guard. -/
def replaceParamsGravityBary (n : ℕ) (params : ℕ → FVal) : ℕ → FVal := fun j =>
  if j < n ∧ j % 4 ≠ 0 then fdiv (params j) (params (4 * (j / 4))) else params j

/-- Concrete full-mode single-link vector: mass 2, first moment (0,0,1),
inertia about the frame origin the identity tensor. -/
def exRoundTrip : ℕ → ℚ := fun j => [2, 0, 0, 1, 1, 0, 0, 1, 0, 1].getD j 0

/-- Concrete full-mode single-link vector: mass 1, first moment (0,0,0),
inertia `diag (1, 1, 3)` — positive definite, triangle inequality violated. -/
def exTriangle : ℕ → ℚ := fun j => [1, 0, 0, 0, 1, 0, 0, 1, 0, 3].getD j 0

/-- Concrete full-mode single-link vector: mass 1, first moment (0,0,0),
inertia `diag (2, 2, 3)` — strictly physically consistent. -/
def exStrictOk : ℕ → ℚ := fun j => [1, 0, 0, 0, 2, 0, 0, 2, 0, 3].getD j 0

/-- Concrete document with one revolute joint (name 0, friction 3, damping 5). -/
def exJoints : List UJoint := [⟨0, true, some ⟨some 3, some 5⟩⟩]

/-- Concrete parameter vector that is `99` everywhere. -/
def exParams99 : ℕ → ℚ := fun _ => 99

/-- Concrete mesh with two vertices per axis. -/
def exMesh : MeshData := ⟨[1, 2], [3, 4], [5, 6]⟩

/-- Concrete gravity-only vector over `FVal`: one link of mass 0 with
stored moments (1, 2, 3). -/
def exFVec : ℕ → FVal :=
  fun j => [FVal.fin 0, FVal.fin 1, FVal.fin 2, FVal.fin 3].getD j (FVal.fin 7)

/-- Concrete full-mode single-link vector with mass exactly 0 and nonzero
stored first moments (5, 6, 7). -/
def exZeroMass : ℕ → ℚ := fun j => [0, 5, 6, 7, 1, 0, 0, 1, 0, 1].getD j 0

/-- The joint names of the friction dictionary, sorted as python `sorted`
sorts them (`addFrictionFromURDF`, lines 261, 265, 268). -/
def sortedJointNames (joints : List UJoint) : List ℕ :=
  List.insertionSort (· ≤ ·) ((getJointFriction joints).map Prod.fst)

/-- The vertex coordinate list of a mesh for each axis. -/
def meshCoords (m : MeshData) : Fin 3 → List ℚ := ![m.xs, m.ys, m.zs]

/-- The three per-axis scale factors of a mesh reference. -/
def axisScales (sx sy sz : ℚ) : Fin 3 → ℚ := ![sx, sy, sz]

/-! ### Helper lemmas on the loop structure of the checks -/

lemma range_filterMap_stride {α : Type} (g : ℕ → α) (m : ℕ) :
    (List.range (10 * m)).filterMap
      (fun i => if i % 10 = 0 then some (g i) else none) =
    (List.range m).map (fun k => g (10 * k)) := by
  induction m with
  | zero => rfl
  | succ m ih =>
    have h10 : 10 * (m + 1) = 10 * m + 10 := by ring
    rw [h10, List.range_add, List.filterMap_append, ih, List.filterMap_map]
    conv_rhs => rw [List.range_succ, List.map_append]
    congr 1
    have e : List.range 10 = [0, 1, 2, 3, 4, 5, 6, 7, 8, 9] := by decide
    have c0 : (10 * m + 0) % 10 = 0 := by omega
    have c1 : ¬((10 * m + 1) % 10 = 0) := by omega
    have c2 : ¬((10 * m + 2) % 10 = 0) := by omega
    have c3 : ¬((10 * m + 3) % 10 = 0) := by omega
    have c4 : ¬((10 * m + 4) % 10 = 0) := by omega
    have c5 : ¬((10 * m + 5) % 10 = 0) := by omega
    have c6 : ¬((10 * m + 6) % 10 = 0) := by omega
    have c7 : ¬((10 * m + 7) % 10 = 0) := by omega
    have c8 : ¬((10 * m + 8) % 10 = 0) := by omega
    have c9 : ¬((10 * m + 9) % 10 = 0) := by omega
    simp [e, Function.comp, c0, c1, c2, c3, c4, c5, c6, c7, c8, c9]

lemma stride10_blocks {α : Type} (g : ℕ → α) (m nm n : ℕ) (hm : nm = 10 * m)
    (h : nm ≤ n) :
    (List.range n).filterMap
      (fun i => if i % 10 = 0 ∧ i < nm then some (g i) else none) =
    (List.range m).map (fun k => g (10 * k)) := by
  obtain ⟨d, rfl⟩ : ∃ d, n = nm + d := ⟨n - nm, by omega⟩
  rw [List.range_add, List.filterMap_append]
  have h2 : List.filterMap
      (fun i => if i % 10 = 0 ∧ i < nm then some (g i) else none)
      ((List.range d).map (nm + ·)) = [] := by
    rw [List.filterMap_map]
    refine List.filterMap_eq_nil_iff.mpr ?_
    intro a _
    have : ¬(nm + a < nm) := by omega
    simp [Function.comp, this]
  rw [h2, List.append_nil]
  have h1 : ∀ i ∈ List.range nm,
      (if i % 10 = 0 ∧ i < nm then some (g i) else none) =
      (if i % 10 = 0 then some (g i) else none) := by
    intro i hi
    have hilt := List.mem_range.mp hi
    by_cases hc : i % 10 = 0 <;> simp [hc, hilt]
  rw [List.filterMap_congr h1, hm, range_filterMap_stride]

lemma inertiaTensorFromParams_eq (m nm n : ℕ) (params : ℕ → ℚ) (hm : nm = 10 * m)
    (h : nm ≤ n) :
    inertiaTensorFromParams nm n params =
    (List.range m).map (fun k => invvech (fun a => params (10 * k + 4 + ↑a))) := by
  unfold inertiaTensorFromParams
  exact stride10_blocks (fun i => invvech (fun a => params (i + 4 + ↑a))) m nm n hm h

lemma map_range_getD {α : Type} (f : ℕ → α) (m k : ℕ) (d : α) (hk : k < m) :
    ((List.range m).map f).getD k d = f k := by
  rw [List.getD_eq_getElem?_getD, List.getElem?_map, List.getElem?_range hk]
  rfl

lemma checkNoTriangle_eq (go full : Bool) (numLinks m nm n : ℕ) (params : ℕ → ℚ)
    (hmode : ¬(go = true ∧ full = false)) (hm : nm = 10 * m) (hn : nm ≤ n) :
    checkPhysicalConsistencyNoTriangle go full numLinks nm n params =
    (List.range m).map (fun k =>
      (k, if params (10 * k) ≤ 0 then false
          else choleskyOk (invvech (fun a => params (10 * k + 4 + ↑a))))) := by
  unfold checkPhysicalConsistencyNoTriangle
  rw [if_neg hmode]
  rw [stride10_blocks (fun i =>
      (i / 10,
        if params i ≤ 0 then false
        else choleskyOk ((inertiaTensorFromParams nm n params).getD (i / 10)
          (invvech (fun _ => 0))))) m nm n hm hn]
  refine List.map_congr_left ?_
  intro k hk
  have hkm := List.mem_range.mp hk
  have hdiv : 10 * k / 10 = k := Nat.mul_div_cancel_left k (by norm_num)
  rw [hdiv, inertiaTensorFromParams_eq m nm n params hm hn,
    map_range_getD _ m k _ hkm]

/-! ### Sylvester criterion: the pivot test of the Cholesky decomposition
succeeds exactly on the positive definite symmetric matrices -/

lemma qf_expand (A : Mat3) (x : Fin 3 → ℚ) :
    qf A x = A 0 0 * x 0 * x 0 + A 0 1 * x 0 * x 1 + A 0 2 * x 0 * x 2
      + A 1 0 * x 1 * x 0 + A 1 1 * x 1 * x 1 + A 1 2 * x 1 * x 2
      + A 2 0 * x 2 * x 0 + A 2 1 * x 2 * x 1 + A 2 2 * x 2 * x 2 := by
  unfold qf dotQ mulVec3
  ring

lemma vec3_ne_zero (x : Fin 3 → ℚ) (hx : x ≠ 0) : x 0 ≠ 0 ∨ x 1 ≠ 0 ∨ x 2 ≠ 0 := by
  by_contra h
  push_neg at h
  obtain ⟨h0, h1, h2⟩ := h
  apply hx
  funext i
  fin_cases i <;> simp [h0, h1, h2]

lemma pos_of_mul_pos_fst {p q : ℚ} (h : 0 < p * q) (hp : 0 < p) : 0 < q := by
  by_contra hq
  push_neg at hq
  nlinarith

lemma posDef_of_choleskyOk (A : Mat3) (hA : Sym3 A) (h : choleskyOk A = true) :
    PosDef3 A := by
  obtain ⟨hb, hc, he⟩ := hA
  unfold choleskyOk at h
  simp only [Bool.and_eq_true, decide_eq_true_eq] at h
  obtain ⟨⟨h1, h2⟩, h3⟩ := h
  intro x hx
  have key : (A 0 0 * (A 0 0 * A 1 1 - A 1 0 * A 1 0)) * qf A x
      = (A 0 0 * A 1 1 - A 1 0 * A 1 0)
          * (A 0 0 * x 0 + A 1 0 * x 1 + A 2 0 * x 2) ^ 2
        + ((A 0 0 * A 1 1 - A 1 0 * A 1 0) * x 1
            + (A 0 0 * A 2 1 - A 1 0 * A 2 0) * x 2) ^ 2
        + A 0 0 * det3L A * x 2 ^ 2 := by
    rw [qf_expand, hb, hc, he]
    unfold det3L
    ring
  have hp : 0 < A 0 0 * (A 0 0 * A 1 1 - A 1 0 * A 1 0) := mul_pos h1 h2
  refine pos_of_mul_pos_fst ?_ hp
  rw [key]
  by_cases hx2 : x 2 = 0
  · by_cases hx1 : x 1 = 0
    · have hx0 : x 0 ≠ 0 := by
        rcases vec3_ne_zero x hx with h0 | h0 | h0
        · exact h0
        · exact absurd hx1 h0
        · exact absurd hx2 h0
      have hL1 : A 0 0 * x 0 ≠ 0 := mul_ne_zero (ne_of_gt h1) hx0
      have hsq : 0 < (A 0 0 * x 0) ^ 2 := (sq_nonneg _).lt_of_ne (Ne.symm (pow_ne_zero 2 hL1))
      rw [hx1, hx2]
      have e1 : A 0 0 * x 0 + A 1 0 * 0 + A 2 0 * 0 = A 0 0 * x 0 := by ring
      rw [e1]
      nlinarith [mul_pos h2 hsq]
    · have hL2 : (A 0 0 * A 1 1 - A 1 0 * A 1 0) * x 1 ≠ 0 := mul_ne_zero (ne_of_gt h2) hx1
      have hsq : 0 < ((A 0 0 * A 1 1 - A 1 0 * A 1 0) * x 1) ^ 2 :=
        (sq_nonneg _).lt_of_ne (Ne.symm (pow_ne_zero 2 hL2))
      rw [hx2]
      nlinarith [mul_nonneg h2.le (sq_nonneg (A 0 0 * x 0 + A 1 0 * x 1 + A 2 0 * 0))]
  · have hsq : 0 < x 2 ^ 2 := (sq_nonneg _).lt_of_ne (Ne.symm (pow_ne_zero 2 hx2))
    nlinarith [mul_nonneg h2.le
        (sq_nonneg (A 0 0 * x 0 + A 1 0 * x 1 + A 2 0 * x 2)),
      sq_nonneg ((A 0 0 * A 1 1 - A 1 0 * A 1 0) * x 1
        + (A 0 0 * A 2 1 - A 1 0 * A 2 0) * x 2),
      mul_pos (mul_pos h1 h3) hsq]

lemma choleskyOk_of_posDef (A : Mat3) (hA : Sym3 A) (h : PosDef3 A) :
    choleskyOk A = true := by
  obtain ⟨hb, hc, he⟩ := hA
  have h1 : 0 < A 0 0 := by
    have hne : (![1, 0, 0] : Fin 3 → ℚ) ≠ 0 := by
      intro hcon
      have := congrFun hcon 0
      simp at this
    have hv := h ![1, 0, 0] hne
    have e : qf A ![1, 0, 0] = A 0 0 := by
      rw [qf_expand]
      norm_num
    rw [e] at hv
    exact hv
  have h2 : 0 < A 0 0 * A 1 1 - A 1 0 * A 1 0 := by
    have hne : (![-(A 1 0), A 0 0, 0] : Fin 3 → ℚ) ≠ 0 := by
      intro hcon
      have h01 := congrFun hcon 1
      simp at h01
      exact absurd h01 (ne_of_gt h1)
    have hv := h ![-(A 1 0), A 0 0, 0] hne
    have e : qf A ![-(A 1 0), A 0 0, 0] = A 0 0 * (A 0 0 * A 1 1 - A 1 0 * A 1 0) := by
      rw [qf_expand, hb, hc, he]
      norm_num
      ring
    rw [e] at hv
    exact pos_of_mul_pos_fst hv h1
  have h3 : 0 < det3L A := by
    have hm2 : A 0 0 * A 1 1 - A 1 0 * A 1 0 ≠ 0 := ne_of_gt h2
    have hne : (![A 1 0 * A 2 1 - A 2 0 * A 1 1, A 1 0 * A 2 0 - A 0 0 * A 2 1,
        A 0 0 * A 1 1 - A 1 0 * A 1 0] : Fin 3 → ℚ) ≠ 0 := by
      intro hcon
      have h22 : A 0 0 * A 1 1 - A 1 0 * A 1 0 = 0 := congrFun hcon 2
      exact hm2 h22
    have hv := h _ hne
    have e : qf A ![A 1 0 * A 2 1 - A 2 0 * A 1 1, A 1 0 * A 2 0 - A 0 0 * A 2 1,
        A 0 0 * A 1 1 - A 1 0 * A 1 0] = (A 0 0 * A 1 1 - A 1 0 * A 1 0) * det3L A := by
      rw [qf_expand, hb, hc, he]
      unfold det3L
      norm_num
      ring
    rw [e] at hv
    exact pos_of_mul_pos_fst hv h2
  unfold choleskyOk
  simp only [Bool.and_eq_true, decide_eq_true_eq]
  exact ⟨⟨h1, h2⟩, h3⟩

lemma choleskyOk_iff_posDef (A : Mat3) (hA : Sym3 A) :
    choleskyOk A = true ↔ PosDef3 A :=
  ⟨posDef_of_choleskyOk A hA, choleskyOk_of_posDef A hA⟩

/-- Adding the (positive semidefinite) parallel-axis correction term keeps a
matrix positive definite; the nonnegativity of the correction on any vector
is the Lagrange identity form of the Cauchy-Schwarz inequality. -/
lemma posDef3_corr (m : ℚ) (hm : 0 < m) (c : Fin 3 → ℚ) (A B : Mat3)
    (hB : ∀ r s, B r s = A r s + m * (dotQ c c * (if r = s then 1 else 0) - c r * c s))
    (h : PosDef3 A) : PosDef3 B := by
  intro x hx
  have hq : qf B x = qf A x
      + m * ((c 0 * x 1 - c 1 * x 0) ^ 2 + (c 0 * x 2 - c 2 * x 0) ^ 2
        + (c 1 * x 2 - c 2 * x 1) ^ 2) := by
    rw [qf_expand, qf_expand, hB 0 0, hB 0 1, hB 0 2, hB 1 0, hB 1 1, hB 1 2,
      hB 2 0, hB 2 1, hB 2 2]
    simp [dotQ]
    ring
  have h1 := h x hx
  have h2 : 0 ≤ m * ((c 0 * x 1 - c 1 * x 0) ^ 2 + (c 0 * x 2 - c 2 * x 0) ^ 2
      + (c 1 * x 2 - c 2 * x 1) ^ 2) := by positivity
  linarith [hq.ge, hq.le]

lemma sym3_invvech (p : Fin 6 → ℚ) : Sym3 (invvech p) := by
  refine ⟨rfl, rfl, rfl⟩

lemma rotInertiaWrtCom_apply (m : ℚ) (c : Fin 3 → ℚ) (io : Mat3) (r s : Fin 3) :
    rotInertiaWrtCom m c io r s =
    io r s - m * (dotQ c c * (if r = s then 1 else 0) - c r * c s) := rfl

lemma sym3_rotInertiaWrtCom (m : ℚ) (c : Fin 3 → ℚ) (io : Mat3) (h : Sym3 io) :
    Sym3 (rotInertiaWrtCom m c io) := by
  obtain ⟨e1, e2, e3⟩ := h
  have i01 : (if (0 : Fin 3) = 1 then (1 : ℚ) else 0) = 0 := rfl
  have i10 : (if (1 : Fin 3) = 0 then (1 : ℚ) else 0) = 0 := rfl
  have i02 : (if (0 : Fin 3) = 2 then (1 : ℚ) else 0) = 0 := rfl
  have i20 : (if (2 : Fin 3) = 0 then (1 : ℚ) else 0) = 0 := rfl
  have i12 : (if (1 : Fin 3) = 2 then (1 : ℚ) else 0) = 0 := rfl
  have i21 : (if (2 : Fin 3) = 1 then (1 : ℚ) else 0) = 0 := rfl
  refine ⟨?_, ?_, ?_⟩
  · rw [rotInertiaWrtCom_apply, rotInertiaWrtCom_apply, i01, i10, e1]
    ring
  · rw [rotInertiaWrtCom_apply, rotInertiaWrtCom_apply, i02, i20, e2]
    ring
  · rw [rotInertiaWrtCom_apply, rotInertiaWrtCom_apply, i12, i21, e3]
    ring

lemma isPhysicallyConsistentModel_eq (p : ℕ → ℚ) :
    isPhysicallyConsistentModel p =
    if p 0 ≤ 0 then false
    else
      choleskyOk (rotInertiaWrtCom (p 0) (fun k => p (1 + ↑k) / p 0)
          (invvech (fun j => p (4 + ↑j)))) &&
        triangleOk (rotInertiaWrtCom (p 0) (fun k => p (1 + ↑k) / p 0)
          (invvech (fun j => p (4 + ↑j)))) := rfl

/-- A link block that passes the modelled strict iDynTree consistency test
has positive mass and positively definite stored inertia tensor, hence
passes the pivot test of the relaxed check. -/
lemma strict_implies_relaxed_block (p : ℕ → ℚ) (h : isPhysicallyConsistentModel p = true) :
    0 < p 0 ∧ choleskyOk (invvech (fun a => p (4 + ↑a))) = true := by
  rw [isPhysicallyConsistentModel_eq] at h
  by_cases hm : p 0 ≤ 0
  · rw [if_pos hm] at h
    exact absurd h (by simp)
  · rw [if_neg hm] at h
    push_neg at hm
    rw [Bool.and_eq_true] at h
    obtain ⟨hchol, _⟩ := h
    refine ⟨hm, ?_⟩
    set I0 : Mat3 := invvech (fun a => p (4 + ↑a)) with hI0
    set c : Fin 3 → ℚ := fun k => p (1 + ↑k) / p 0 with hc
    have hsymI0 : Sym3 I0 := by
      rw [hI0]
      exact sym3_invvech _
    have hsymIc : Sym3 (rotInertiaWrtCom (p 0) c I0) :=
      sym3_rotInertiaWrtCom _ _ _ hsymI0
    have hpd := posDef_of_choleskyOk _ hsymIc hchol
    have hpd0 : PosDef3 I0 := by
      refine posDef3_corr (p 0) hm c (rotInertiaWrtCom (p 0) c I0) I0 ?_ hpd
      intro r s
      rw [rotInertiaWrtCom_apply]
      ring
    exact choleskyOk_of_posDef _ hsymI0 hpd0

lemma fin3_fun_eq (g : Fin 3 → ℚ) (x y z : ℚ) (h0 : g 0 = x) (h1 : g 1 = y)
    (h2 : g 2 = z) : g = ![x, y, z] := by
  funext k
  fin_cases k
  · exact h0
  · exact h1
  · exact h2

lemma fin6_fun_eq (g : Fin 6 → ℚ) (a b c d e f : ℚ) (h0 : g 0 = a) (h1 : g 1 = b)
    (h2 : g 2 = c) (h3 : g 3 = d) (h4 : g 4 = e) (h5 : g 5 = f) :
    g = ![a, b, c, d, e, f] := by
  funext k
  fin_cases k
  · exact h0
  · exact h1
  · exact h2
  · exact h3
  · exact h4
  · exact h5

lemma invvech_explicit (a b c d e f : ℚ) :
    invvech ![a, b, c, d, e, f] = ![![a, b, c], ![b, d, e], ![c, e, f]] := by
  funext r s
  fin_cases r <;> fin_cases s <;> rfl

lemma rotInertiaWrtCom_zero_c (m : ℚ) (io : Mat3) :
    rotInertiaWrtCom m ![0, 0, 0] io = io := by
  funext r s
  rw [rotInertiaWrtCom_apply]
  fin_cases r <;> fin_cases s <;> norm_num [dotQ]

lemma choleskyOk_eval (A : Mat3) (a00 a10 a11 a20 a21 a22 : ℚ)
    (h00 : A 0 0 = a00) (h10 : A 1 0 = a10) (h11 : A 1 1 = a11)
    (h20 : A 2 0 = a20) (h21 : A 2 1 = a21) (h22 : A 2 2 = a22) :
    choleskyOk A =
      (decide (0 < a00) && decide (0 < a00 * a11 - a10 * a10) &&
        decide (0 < a00 * (a11 * a22 - a21 * a21) - a10 * (a10 * a22 - a21 * a20)
          + a20 * (a10 * a21 - a11 * a20))) := by
  unfold choleskyOk det3L
  rw [h00, h10, h11, h20, h21, h22]

lemma psd3Ok_eval (B : Mat3) (b00 b01 b02 b10 b11 b12 b20 b21 b22 : ℚ)
    (h00 : B 0 0 = b00) (h01 : B 0 1 = b01) (h02 : B 0 2 = b02)
    (h10 : B 1 0 = b10) (h11 : B 1 1 = b11) (h12 : B 1 2 = b12)
    (h20 : B 2 0 = b20) (h21 : B 2 1 = b21) (h22 : B 2 2 = b22) :
    psd3Ok B =
      (decide (0 ≤ b00) && decide (0 ≤ b11) && decide (0 ≤ b22) &&
        decide (0 ≤ b00 * b11 - b01 * b10) &&
        decide (0 ≤ b00 * b22 - b02 * b20) &&
        decide (0 ≤ b11 * b22 - b12 * b21) &&
        decide (0 ≤ b00 * (b11 * b22 - b12 * b21) - b01 * (b10 * b22 - b12 * b20)
          + b02 * (b10 * b21 - b11 * b20))) := by
  unfold psd3Ok det3
  rw [h00, h01, h02, h10, h11, h12, h20, h21, h22]

lemma triangleOk_eval (A : Mat3) (t a00 a01 a02 a10 a11 a12 a20 a21 a22 : ℚ)
    (h00 : A 0 0 = a00) (h01 : A 0 1 = a01) (h02 : A 0 2 = a02)
    (h10 : A 1 0 = a10) (h11 : A 1 1 = a11) (h12 : A 1 2 = a12)
    (h20 : A 2 0 = a20) (h21 : A 2 1 = a21) (h22 : A 2 2 = a22)
    (ht : t = a00 + a11 + a22) :
    triangleOk A =
      psd3Ok ![![t - 2 * a00, -(2 * a01), -(2 * a02)],
        ![-(2 * a10), t - 2 * a11, -(2 * a12)],
        ![-(2 * a20), -(2 * a21), t - 2 * a22]] := by
  unfold triangleOk
  congr 1
  funext r s
  fin_cases r <;> fin_cases s <;>
    simp [h00, h01, h02, h10, h11, h12, h20, h21, h22, ht]

/-- Evaluation of the modelled strict consistency predicate on a block whose
ten entries are known. -/
lemma isPhysicallyConsistentModel_eval (p : ℕ → ℚ) (m h1 h2 h3 a b c d e f : ℚ)
    (e0 : p 0 = m) (e1 : p 1 = h1) (e2 : p 2 = h2) (e3 : p 3 = h3)
    (e4 : p 4 = a) (e5 : p 5 = b) (e6 : p 6 = c) (e7 : p 7 = d)
    (e8 : p 8 = e) (e9 : p 9 = f) :
    isPhysicallyConsistentModel p =
    (if m ≤ 0 then false
     else
       choleskyOk (rotInertiaWrtCom m ![h1 / m, h2 / m, h3 / m]
           (invvech ![a, b, c, d, e, f])) &&
         triangleOk (rotInertiaWrtCom m ![h1 / m, h2 / m, h3 / m]
           (invvech ![a, b, c, d, e, f]))) := by
  have ec : (fun k : Fin 3 => p (1 + ↑k) / p 0) = ![h1 / m, h2 / m, h3 / m] := by
    refine fin3_fun_eq _ _ _ _ ?_ ?_ ?_
    · show p 1 / p 0 = h1 / m
      rw [e0, e1]
    · show p 2 / p 0 = h2 / m
      rw [e0, e2]
    · show p 3 / p 0 = h3 / m
      rw [e0, e3]
  have eI : (fun j : Fin 6 => p (4 + ↑j)) = ![a, b, c, d, e, f] := by
    refine fin6_fun_eq _ _ _ _ _ _ _ ?_ ?_ ?_ ?_ ?_ ?_
    · exact e4
    · exact e5
    · exact e6
    · exact e7
    · exact e8
    · exact e9
  rw [isPhysicallyConsistentModel_eq, ec, eI, e0]

lemma checkStrict_eq (go full : Bool) (numLinks m nm n : ℕ) (params : ℕ → ℚ)
    (hmode : ¬(go = true ∧ full = false)) (hm : nm = 10 * m) (hn : nm ≤ n) :
    checkPhysicalConsistency go full numLinks nm n params =
    (List.range m).map (fun k =>
      (k, isPhysicallyConsistentModel (fun j => params (10 * k + j)))) := by
  unfold checkPhysicalConsistency
  rw [if_neg hmode]
  rw [stride10_blocks (fun i =>
      (i / 10, isPhysicallyConsistentModel (fun j => params (i + j)))) m nm n hm hn]
  refine List.map_congr_left ?_
  intro k hk
  have hdiv : 10 * k / 10 = k := Nat.mul_div_cancel_left k (by norm_num)
  rw [hdiv]

/-! ### Evaluation lemmas for the conversion loops -/

lemma paramsLink2Bary_mass (nm n : ℕ) (params : ℕ → ℚ) (i : ℕ)
    (hi : i % 10 = 0) (hnm : i < nm) (hn : i < n) :
    paramsLink2Bary nm n params i = params i := by
  have h1 : 10 * (i / 10) = i := by omega
  simp [paramsLink2Bary, h1, hnm, hn, hi]

lemma paramsLink2Bary_com (nm n : ℕ) (params : ℕ → ℚ) (i r : ℕ)
    (hi : i % 10 = 0) (hr1 : 1 ≤ r) (hr3 : r ≤ 3) (hnm : i < nm) (hn : i < n) :
    paramsLink2Bary nm n params (i + r) =
    if params i = 0 then 0 else params (i + r) / params i := by
  have h1 : 10 * ((i + r) / 10) = i := by omega
  have h2 : (i + r) % 10 = r := by omega
  have h3 : ¬(r = 0) := by omega
  have h4 : r < 4 := by omega
  have h5 : i + 1 + (r - 1) = i + r := by omega
  simp only [paramsLink2Bary, h1, h2]
  rw [if_pos ⟨hnm, hn⟩, if_neg h3, dif_pos h4]
  by_cases hz : params i = 0
  · simp [hz]
  · simp [hz, h5]

lemma map_getD_lt {α β : Type} (f : α → β) (l : List α) (k : ℕ) (d : β) (d0 : α)
    (hk : k < l.length) : (l.map f).getD k d = f (l.getD k d0) := by
  simp [List.getD_eq_getElem?_getD, List.getElem?_map, List.getElem?_eq_getElem hk]

lemma mapM_except_error {α β ε : Type} (f : α → Except ε β) (l : List α) (a : α)
    (ha : a ∈ l) (err : ε) (he : f a = Except.error err) :
    ∃ e, l.mapM f = Except.error e := by
  induction l with
  | nil => cases ha
  | cons hd tl ih =>
    rw [List.mapM_cons]
    rcases List.mem_cons.mp ha with rfl | hmem
    · exact ⟨err, by rw [he]; rfl⟩
    · cases hfhd : f hd with
      | error e => exact ⟨e, rfl⟩
      | ok b =>
        obtain ⟨e, hE⟩ := ih hmem
        exact ⟨e, by rw [hE]; rfl⟩

lemma foldl_max_init_le (l : List ℚ) : ∀ a b : ℚ, a ≤ b → l.foldl max a ≤ l.foldl max b := by
  induction l with
  | nil => intro a b h; simpa using h
  | cons x t ih => intro a b h; exact ih _ _ (max_le_max h (le_refl x))

lemma foldl_min_le_foldl_max (l : List ℚ) : ∀ x : ℚ, l.foldl min x ≤ l.foldl max x := by
  induction l with
  | nil => intro x; simp
  | cons y t ih =>
    intro x
    calc t.foldl min (min x y) ≤ t.foldl max (min x y) := ih _
      _ ≤ t.foldl max (max x y) :=
        foldl_max_init_le t _ _ (le_trans (min_le_left x y) (le_max_left x y))

lemma npMin_le_npMax (l : List ℚ) : npMin l ≤ npMax l := by
  cases l with
  | nil => exact le_refl 0
  | cons x t => exact foldl_min_le_foldl_max t x

lemma getBoundingBox_eval (hullScale sx sy sz : ℚ) (m : MeshData) (a : Fin 3) :
    getBoundingBox hullScale sx sy sz m a =
    if axisScales sx sy sz a < 0
    then (npMax (meshCoords m a) * axisScales sx sy sz a * hullScale,
          npMin (meshCoords m a) * axisScales sx sy sz a * hullScale)
    else (npMin (meshCoords m a) * axisScales sx sy sz a * hullScale,
          npMax (meshCoords m a) * axisScales sx sy sz a * hullScale) := by
  fin_cases a <;> rfl

/-! ### Claim theorems -/

/-- C3: for every 6-vector `v`, `vech (invvech v) = v` exactly: `invvech`
fills a symmetric 3x3 matrix via the index mapping 0 to (0,0), 1 to (0,1)
and (1,0), 2 to (0,2) and (2,0), 3 to (1,1), 4 to (1,2) and (2,1),
5 to (2,2), and `vech` (upper triangle including the diagonal, same
mapping) is its exact inverse. -/
theorem vech_invvech_roundtrip (v : Fin 6 → ℚ) :
    vech (invvech v) = v ∧ Sym3 (invvech v) ∧
    invvech v 0 0 = v 0 ∧ invvech v 0 1 = v 1 ∧ invvech v 0 2 = v 2 ∧
    invvech v 1 0 = v 1 ∧ invvech v 2 0 = v 2 ∧
    invvech v 1 1 = v 3 ∧ invvech v 1 2 = v 4 ∧ invvech v 2 1 = v 4 ∧
    invvech v 2 2 = v 5 := by
  refine ⟨?_, ⟨rfl, rfl, rfl⟩, rfl, rfl, rfl, rfl, rfl, rfl, rfl, rfl, rfl⟩
  funext i
  fin_cases i <;> rfl

/-- C4: on every full-mode vector, a link block (stride 10, start `i` below
`nm` and below the vector length) whose mass entry is exactly zero gets
center of mass `(0,0,0)` from `paramsLink2Bary`, regardless of the stored
first-moment values, and the conversion completes (it is a total function;
the python branch writes the three zeros without dividing); the mass entry
itself is returned unchanged. -/
theorem paramsLink2Bary_zero_mass (nm n : ℕ) (params : ℕ → ℚ) (i : ℕ)
    (hi : i % 10 = 0) (hnm : i < nm) (hn : i < n) (hm : params i = 0) :
    paramsLink2Bary nm n params (i + 1) = 0 ∧
    paramsLink2Bary nm n params (i + 2) = 0 ∧
    paramsLink2Bary nm n params (i + 3) = 0 ∧
    paramsLink2Bary nm n params i = params i := by
  refine ⟨?_, ?_, ?_, paramsLink2Bary_mass nm n params i hi hnm hn⟩ <;>
    rw [paramsLink2Bary_com nm n params i _ hi (by omega) (by omega) hnm hn] <;>
    simp [hm]

/-- Witness for C4 at the concrete vector `exZeroMass` (mass 0, stored
moments (5, 6, 7)). -/
theorem paramsLink2Bary_zero_mass_witness :
    paramsLink2Bary 10 10 exZeroMass (0 + 1) = 0 ∧
    paramsLink2Bary 10 10 exZeroMass (0 + 2) = 0 ∧
    paramsLink2Bary 10 10 exZeroMass (0 + 3) = 0 ∧
    paramsLink2Bary 10 10 exZeroMass 0 = exZeroMass 0 :=
  paramsLink2Bary_zero_mass 10 10 exZeroMass 0 (by norm_num) (by norm_num)
    (by norm_num) (by decide)

/-- C1 (code bug): the claimed round trip
`paramsBary2Link (paramsLink2Bary v) = v` fails on the code.  On the
single-link full-mode vector `exRoundTrip` (mass 2, first moment (0,0,1),
identity inertia about the frame origin — every mass strictly positive),
the converted-back `Ixx` entry is `5/2` instead of the original `1`:
`paramsBary2Link` hands the first mass moment, not the center of mass, to
the spatial-inertia primitive (it builds `p_com` from the slots it just
overwrote with `com * mass`, helpers.py lines 234-237), so the
parallel-axis term it adds back is scaled wrongly for any link with mass
different from 1 and nonzero center of mass. -/
theorem paramsBary2Link_roundtrip_fails :
    paramsBary2Link 10 10 (paramsLink2Bary 10 10 exRoundTrip) 4 = 5 / 2 ∧
    exRoundTrip 4 = 1 := by
  constructor
  · norm_num [paramsBary2Link, paramsLink2Bary, exRoundTrip, invvech, vechAt,
      rotInertiaWrtOrigin, rotInertiaWrtCom, dotQ]
  · rfl

/-- C2: in full mode (the branch taken whenever not in gravity-only mode or
when `full` is passed), `checkPhysicalConsistencyNoTriangle` yields, for
every link `k`, exactly the boolean `mass > 0 && choleskyOk tensor_k`,
where `tensor_k` is the 3x3 tensor that `inertiaTensorFromParams` builds
from the six stored components of the block — so a non-positive mass is
invalid whatever the inertia entries hold, a positive-mass link is valid
exactly when the Cholesky-type decomposition (positive definiteness test)
succeeds, and failure is the boolean `false`, never a fault (the functions
are total).  Moreover the result never looks at entries at indices `≥ nm`,
in particular never at friction entries: two vectors agreeing below `nm`
give identical results. -/
theorem checkNoTriangle_full_mode (go full : Bool) (numLinks nm n : ℕ)
    (params params2 : ℕ → ℚ) (k : ℕ) (b : Bool)
    (hmode : ¬(go = true ∧ full = false)) (h10 : 10 ∣ nm) (hn : nm ≤ n)
    (hagree : ∀ j, j < nm → params j = params2 j) :
    ((k, b) ∈ checkPhysicalConsistencyNoTriangle go full numLinks nm n params ↔
      10 * k < nm ∧
        b = (decide (0 < params (10 * k)) &&
          choleskyOk (invvech (fun a => params (10 * k + 4 + ↑a))))) ∧
    checkPhysicalConsistencyNoTriangle go full numLinks nm n params =
      checkPhysicalConsistencyNoTriangle go full numLinks nm n params2 := by
  obtain ⟨m, rfl⟩ := h10
  have hbody : ∀ q : ℕ → ℚ, ∀ k2 : ℕ,
      (if q (10 * k2) ≤ 0 then false
       else choleskyOk (invvech (fun a => q (10 * k2 + 4 + ↑a)))) =
      (decide (0 < q (10 * k2)) &&
        choleskyOk (invvech (fun a => q (10 * k2 + 4 + ↑a)))) := by
    intro q k2
    by_cases hp : q (10 * k2) ≤ 0
    · simp [hp, not_lt.mpr hp]
    · simp [hp, not_le.mp hp]
  constructor
  · rw [checkNoTriangle_eq go full numLinks m (10 * m) n params hmode rfl hn]
    simp only [List.mem_map, List.mem_range, Prod.mk.injEq]
    constructor
    · rintro ⟨k2, hk2, hkk, hbb⟩
      subst hkk
      refine ⟨by omega, ?_⟩
      rw [← hbb, hbody]
    · rintro ⟨hklt, hb⟩
      refine ⟨k, by omega, rfl, ?_⟩
      rw [hbody]
      exact hb.symm
  · rw [checkNoTriangle_eq go full numLinks m (10 * m) n params hmode rfl hn,
      checkNoTriangle_eq go full numLinks m (10 * m) n params2 hmode rfl hn]
    refine List.map_congr_left ?_
    intro k2 hk2
    have hk2m := List.mem_range.mp hk2
    have e1 : params (10 * k2) = params2 (10 * k2) := hagree _ (by omega)
    have e2 : (fun a : Fin 6 => params (10 * k2 + 4 + ↑a)) =
        (fun a : Fin 6 => params2 (10 * k2 + 4 + ↑a)) := by
      funext a
      have ha := a.isLt
      exact hagree _ (by omega)
    rw [e1, e2]

/-- Witness for C2 at the concrete single-link vector `exTriangle` in full
mode: the link is reported valid, exactly the value of the mass test and
the Cholesky pivot test, and the result ignores entries beyond `nm`. -/
theorem checkNoTriangle_full_mode_witness :
    (((0, true) ∈ checkPhysicalConsistencyNoTriangle false true 1 10 10 exTriangle ↔
      10 * 0 < 10 ∧
        true = (decide (0 < exTriangle (10 * 0)) &&
          choleskyOk (invvech (fun a => exTriangle (10 * 0 + 4 + ↑a))))) ∧
    checkPhysicalConsistencyNoTriangle false true 1 10 10 exTriangle =
      checkPhysicalConsistencyNoTriangle false true 1 10 10 exTriangle) :=
  checkNoTriangle_full_mode false true 1 10 10 exTriangle exTriangle 0 true
    (by simp) (dvd_refl 10) (le_refl 10) (fun j _ => rfl)

/-- C5: every link that passes the strict check `checkPhysicalConsistency`
also passes the relaxed check `checkPhysicalConsistencyNoTriangle` (in
gravity-only mode the two checks run the same mass test; in full mode
strict consistency gives a positive mass and a positive definite inertia
about the center of mass, and adding back the positive semidefinite
parallel-axis term keeps the stored tensor positive definite, so its
Cholesky decomposition succeeds); the converse fails: on the single-link
vector `exTriangle` (mass 1, center of mass at the origin, inertia
`diag (1,1,3)`, which violates the triangle inequality `3 ≤ 1 + 1`), the
relaxed check reports the link valid and the strict check reports it
invalid. -/
theorem strict_implies_relaxed :
    (∀ (go full : Bool) (numLinks nm n : ℕ) (params : ℕ → ℚ) (k : ℕ),
      10 ∣ nm → nm ≤ n →
      (k, true) ∈ checkPhysicalConsistency go full numLinks nm n params →
      (k, true) ∈ checkPhysicalConsistencyNoTriangle go full numLinks nm n params) ∧
    ((0, true) ∈ checkPhysicalConsistencyNoTriangle false true 1 10 10 exTriangle ∧
      (0, false) ∈ checkPhysicalConsistency false true 1 10 10 exTriangle) := by
  constructor
  · intro go full numLinks nm n params k h10 hn hk
    by_cases hmode : go = true ∧ full = false
    · unfold checkPhysicalConsistency at hk
      unfold checkPhysicalConsistencyNoTriangle
      rw [if_pos hmode] at hk
      rw [if_pos hmode]
      exact hk
    · obtain ⟨m, rfl⟩ := h10
      rw [checkStrict_eq go full numLinks m (10 * m) n params hmode rfl hn] at hk
      rw [checkNoTriangle_eq go full numLinks m (10 * m) n params hmode rfl hn]
      simp only [List.mem_map, List.mem_range, Prod.mk.injEq] at hk ⊢
      obtain ⟨k2, hk2, hkk, hbody⟩ := hk
      subst hkk
      obtain ⟨hpos, hchol⟩ := strict_implies_relaxed_block _ hbody
      have hpos2 : 0 < params (10 * k2) := by simpa using hpos
      have hchol2 : choleskyOk (invvech (fun a => params (10 * k2 + 4 + ↑a))) = true := by
        have e : (fun a : Fin 6 => params (10 * k2 + (4 + ↑a))) =
            (fun a : Fin 6 => params (10 * k2 + 4 + ↑a)) := by
          funext a
          rw [Nat.add_assoc]
        rw [← e]
        exact hchol
      refine ⟨k2, hk2, rfl, ?_⟩
      rw [if_neg (not_le.mpr hpos2)]
      exact hchol2
  · constructor
    · have hch := checkNoTriangle_eq false true 1 1 10 10 exTriangle
        (by simp) rfl (le_refl 10)
      rw [hch]
      have eI : (fun a : Fin 6 => exTriangle (10 * 0 + 4 + ↑a)) =
          ![1, 0, 0, 1, 0, 3] := fin6_fun_eq _ _ _ _ _ _ _ rfl rfl rfl rfl rfl rfl
      have hb : (if exTriangle (10 * 0) ≤ 0 then false
          else choleskyOk (invvech (fun a => exTriangle (10 * 0 + 4 + ↑a)))) = true := by
        rw [eI, invvech_explicit]
        have hmass : exTriangle (10 * 0) = 1 := rfl
        rw [hmass, if_neg (by norm_num : ¬((1 : ℚ) ≤ 0))]
        rw [choleskyOk_eval _ 1 0 1 0 0 3 rfl rfl rfl rfl rfl rfl]
        simp only [Bool.and_eq_true, decide_eq_true_eq]
        norm_num
      simp only [List.mem_map, List.mem_range, Prod.mk.injEq]
      exact ⟨0, by norm_num, rfl, hb⟩
    · have hch := checkStrict_eq false true 1 1 10 10 exTriangle
        (by simp) rfl (le_refl 10)
      rw [hch]
      have hb : isPhysicallyConsistentModel (fun j => exTriangle (10 * 0 + j)) = false := by
        rw [isPhysicallyConsistentModel_eval _ 1 0 0 0 1 0 0 1 0 3 rfl rfl rfl rfl rfl
          rfl rfl rfl rfl rfl, invvech_explicit]
        have h01 : (0 : ℚ) / 1 = 0 := by norm_num
        simp only [h01]
        rw [rotInertiaWrtCom_zero_c, if_neg (by norm_num : ¬((1 : ℚ) ≤ 0))]
        rw [Bool.eq_false_iff]
        intro hcon
        rw [Bool.and_eq_true] at hcon
        obtain ⟨-, htri⟩ := hcon
        rw [triangleOk_eval _ 5 1 0 0 0 1 0 0 0 3 rfl rfl rfl rfl rfl rfl rfl rfl rfl
          (by norm_num)] at htri
        rw [psd3Ok_eval _ (5 - 2 * 1) (-(2 * 0)) (-(2 * 0)) (-(2 * 0)) (5 - 2 * 1)
          (-(2 * 0)) (-(2 * 0)) (-(2 * 0)) (5 - 2 * 3)
          rfl rfl rfl rfl rfl rfl rfl rfl rfl] at htri
        simp only [Bool.and_eq_true, decide_eq_true_eq] at htri
        norm_num at htri
      simp only [List.mem_map, List.mem_range, Prod.mk.injEq]
      exact ⟨0, by norm_num, rfl, hb⟩

/-- Witness for C5: the concrete single-link vector `exStrictOk` passes
the strict check, and the implication of the theorem then places it in the
relaxed check as well. -/
theorem strict_implies_relaxed_witness :
    (0, true) ∈ checkPhysicalConsistencyNoTriangle false true 1 10 10 exStrictOk :=
  strict_implies_relaxed.1 false true 1 10 10 exStrictOk 0 (dvd_refl 10) (le_refl 10)
    (by
      have hch := checkStrict_eq false true 1 1 10 10 exStrictOk
        (by simp) rfl (le_refl 10)
      rw [hch]
      have hb : isPhysicallyConsistentModel (fun j => exStrictOk (10 * 0 + j)) = true := by
        rw [isPhysicallyConsistentModel_eval _ 1 0 0 0 2 0 0 2 0 3 rfl rfl rfl rfl rfl
          rfl rfl rfl rfl rfl, invvech_explicit]
        have h01 : (0 : ℚ) / 1 = 0 := by norm_num
        simp only [h01]
        rw [rotInertiaWrtCom_zero_c, if_neg (by norm_num : ¬((1 : ℚ) ≤ 0))]
        rw [choleskyOk_eval _ 2 0 2 0 0 3 rfl rfl rfl rfl rfl rfl]
        rw [triangleOk_eval _ 7 2 0 0 0 2 0 0 0 3 rfl rfl rfl rfl rfl rfl rfl rfl rfl
          (by norm_num)]
        rw [psd3Ok_eval _ (7 - 2 * 2) (-(2 * 0)) (-(2 * 0)) (-(2 * 0)) (7 - 2 * 2)
          (-(2 * 0)) (-(2 * 0)) (-(2 * 0)) (7 - 2 * 3)
          rfl rfl rfl rfl rfl rfl rfl rfl rfl]
        simp only [Bool.and_eq_true, decide_eq_true_eq]
        norm_num
      simp only [List.mem_map, List.mem_range, Prod.mk.injEq]
      exact ⟨0, by norm_num, rfl, hb⟩)

/-- C6 counterexample: the claim that none of the conversion functions
mutates the vector passed in is false for `addFrictionFromURDF`: it
assigns into slices of the very array of the caller (helpers.py lines
261-268, no copy, return value `None`).  On the concrete document
`exJoints` (one revolute joint with friction 3) and the vector that is 99
everywhere, the buffer of the caller holds 3 instead of 99 at index
`nm = 10` after the call. -/
theorem addFrictionFromURDF_mutates_input :
    addFrictionFromURDF false true 10 1 exJoints exParams99 10 = 3 ∧
    exParams99 10 = 99 ∧ (3 : ℚ) ≠ 99 := by
  refine ⟨rfl, rfl, by norm_num⟩

/-- C6 amended: `paramsLink2Bary` and `paramsBary2Link` leave the buffer of
the caller untouched (they work on a copy, lines 197 and 226, and return
the copy as a new vector), while `addFrictionFromURDF` writes the friction
coefficients into the passed vector in place and returns nothing — on the
concrete input its caller buffer differs from the prior contents. -/
theorem conversion_mutation_status :
    (∀ (nm n : ℕ) (params : ℕ → ℚ), (paramsLink2BaryCall nm n params).2 = params) ∧
    (∀ (nm n : ℕ) (params : ℕ → ℚ), (paramsBary2LinkCall nm n params).2 = params) ∧
    (addFrictionFromURDF false true 10 1 exJoints exParams99 10 = 3 ∧
      exParams99 10 = 99 ∧ (3 : ℚ) ≠ 99) :=
  ⟨fun _ _ _ => rfl, fun _ _ _ => rfl, rfl, rfl, by norm_num⟩

/-- C7 counterexample: with symmetric velocity friction assumed
(`identifySymmetricVelFriction` true), `addFrictionFromURDF` writes the
viscous value only once (index `nm + nd + k`) and leaves the would-be
second half untouched; the duplication into both halves happens only in
the asymmetric case.  Concretely with `nm = 10`, `nd = 1`, damping 5 and a
buffer of 99s, index 11 receives 5 but index 12 keeps 99. -/
theorem addFrictionFromURDF_no_duplication_when_symmetric :
    addFrictionFromURDF false true 10 1 exJoints exParams99 11 = 5 ∧
    addFrictionFromURDF false true 10 1 exJoints exParams99 12 = 99 ∧
    (99 : ℚ) ≠ 5 := by
  refine ⟨rfl, rfl, by norm_num⟩

/-- C7 amended: `addFrictionFromURDF` reads the per-joint Coulomb and
viscous coefficients from the document keyed by joint name (0 for a
missing attribute, which never interrupts the operation — the lookup is
total), sorts them by joint name, writes the Coulomb values into the
constant-friction block `[nm, nm+nd)`; when velocity-dependent friction
identification is active (not gravity-only) it writes the viscous block
`[nm+nd, nm+2*nd)`, and it duplicates each value into the second half
`[nm+2*nd, nm+3*nd)` exactly when friction is asymmetric (not symmetric);
with symmetric friction everything at and beyond `nm+2*nd` is untouched. -/
theorem addFrictionFromURDF_spec (gravityOnly symmetric : Bool) (nm nd : ℕ)
    (joints : List UJoint) (params : ℕ → ℚ) (k : ℕ) (hk : k < nd)
    (hlen : (sortedJointNames joints).length = nd) :
    (addFrictionFromURDF gravityOnly symmetric nm nd joints params (nm + k) =
      (frictionLookup (getJointFriction joints) ((sortedJointNames joints).getD k 0)).1) ∧
    (gravityOnly = false →
      addFrictionFromURDF gravityOnly symmetric nm nd joints params (nm + nd + k) =
        (frictionLookup (getJointFriction joints) ((sortedJointNames joints).getD k 0)).2) ∧
    (gravityOnly = false → symmetric = false →
      addFrictionFromURDF gravityOnly symmetric nm nd joints params (nm + 2 * nd + k) =
        (frictionLookup (getJointFriction joints) ((sortedJointNames joints).getD k 0)).2) ∧
    (symmetric = true → ∀ j, nm + 2 * nd ≤ j →
      addFrictionFromURDF gravityOnly symmetric nm nd joints params j = params j) ∧
    List.Sorted (· ≤ ·) (sortedJointNames joints) ∧
    (∀ nme : ℕ, UJoint.mk nme true (some (Dyn.mk none none)) ∈ joints →
      (nme, 0, 0) ∈ getJointFriction joints) := by
  have hless : k < (sortedJointNames joints).length := by omega
  refine ⟨?_, ?_, ?_, ?_, ?_, ?_⟩
  · simp only [addFrictionFromURDF]
    rw [if_pos ⟨by omega, by omega⟩]
    have e1 : nm + k - nm = k := by omega
    rw [e1]
    exact map_getD_lt _ _ k 0 0 hless
  · intro hgo
    simp only [addFrictionFromURDF]
    rw [if_neg (by omega), if_pos ⟨hgo, by omega, by omega⟩]
    have e1 : nm + nd + k - (nm + nd) = k := by omega
    rw [e1]
    exact map_getD_lt _ _ k 0 0 hless
  · intro hgo hsym
    simp only [addFrictionFromURDF]
    rw [if_neg (by omega), if_neg (by intro hcon; omega), if_pos ⟨hgo, hsym, by omega, by omega⟩]
    have e1 : nm + 2 * nd + k - (nm + 2 * nd) = k := by omega
    rw [e1]
    exact map_getD_lt _ _ k 0 0 hless
  · intro hsym j hj
    simp only [addFrictionFromURDF]
    rw [if_neg (by omega), if_neg (by intro hcon; omega),
      if_neg (by intro hcon; rw [hsym] at hcon; simp at hcon)]
  · exact List.sorted_insertionSort _ _
  · intro nme hmem
    unfold getJointFriction
    exact List.mem_filterMap.mpr ⟨_, hmem, rfl⟩

/-- Witness for C7 (amended) at the concrete document `exJoints`
(one revolute joint, friction 3), asymmetric mode, `nm = 10`, `nd = 1`,
`k = 0`: the constant friction value lands at index 10. -/
theorem addFrictionFromURDF_spec_witness :
    addFrictionFromURDF false false 10 1 exJoints exParams99 (10 + 0) =
      (frictionLookup (getJointFriction exJoints)
        ((sortedJointNames exJoints).getD 0 0)).1 :=
  (addFrictionFromURDF_spec false false 10 1 exJoints exParams99 0
    (by norm_num) rfl).1

/-- C8: when friction identification is enabled, gravity-only mode is off
and velocity friction was identified asymmetric, `replaceParamsInURDF`
aborts the whole operation with the fatal diagnostic (`sys.exit(1)`,
helpers.py line 321) as soon as a joint of the topology is encountered in
the document — no output document is produced, so in particular no viscous
friction value is ever written for such a joint. -/
theorem replaceParamsInURDF_asymmetric_aborts
    (linkNames jointNames : List ℕ) (numLinks nm nd n : ℕ)
    (links : List ULink) (joints : List UJoint) (params : ℕ → ℚ) (j : UJoint)
    (hj : j ∈ joints) (hname : j.name ∈ jointNames) :
    replaceParamsInURDF false true false linkNames jointNames numLinks nm nd n
      links joints params = Except.error UrdfWriteError.asymmetricVelFriction := by
  have herr : writeJointFriction false true false jointNames numLinks
      (if (false : Bool) = true then 4 else 10) nm nd
      (if (false : Bool) = true then
        fun j2 => if j2 < n ∧ j2 % 4 ≠ 0 then params j2 / params (4 * (j2 / 4)) else params j2
       else paramsLink2Bary nm n params) j =
      Except.error UrdfWriteError.asymmetricVelFriction := by
    simp [writeJointFriction, hname]
  obtain ⟨e, hE⟩ := mapM_except_error _ joints j hj _ herr
  simp only [replaceParamsInURDF]
  rw [hE]
  cases e
  rfl

/-- Witness for C8: a document with one revolute joint of the topology. -/
theorem replaceParamsInURDF_asymmetric_aborts_witness :
    replaceParamsInURDF false true false [] [0] 1 10 1 10 [] exJoints exParams99 =
      Except.error UrdfWriteError.asymmetricVelFriction :=
  replaceParamsInURDF_asymmetric_aborts [] [0] 1 10 1 10 [] exJoints exParams99
    ⟨0, true, some ⟨some 3, some 5⟩⟩ (by decide) (by decide)

/-- C9: `getBoundingBox` (mesh branch) swaps the min/max pair of every axis
whose scale factor is negative — with scale `-1` on an axis the returned
pair there is `(max * scale * hull, min * scale * hull)`, the scaled
maximum first — while an axis with nonnegative scale keeps the usual
`(min * scale * hull, max * scale * hull)` order; consequently (for the
nonnegative hull-inflation factor) the lower bound never exceeds the
upper bound on any axis, whatever the sign of the scale. -/
theorem getBoundingBox_negative_scale (hullScale sx sy sz : ℚ) (m : MeshData)
    (a : Fin 3) :
    (axisScales sx sy sz a < 0 →
      getBoundingBox hullScale sx sy sz m a =
        (npMax (meshCoords m a) * axisScales sx sy sz a * hullScale,
         npMin (meshCoords m a) * axisScales sx sy sz a * hullScale)) ∧
    (0 ≤ axisScales sx sy sz a →
      getBoundingBox hullScale sx sy sz m a =
        (npMin (meshCoords m a) * axisScales sx sy sz a * hullScale,
         npMax (meshCoords m a) * axisScales sx sy sz a * hullScale)) ∧
    (0 ≤ hullScale →
      (getBoundingBox hullScale sx sy sz m a).1 ≤ (getBoundingBox hullScale sx sy sz m a).2) := by
  refine ⟨?_, ?_, ?_⟩
  · intro hneg
    rw [getBoundingBox_eval, if_pos hneg]
  · intro hpos
    rw [getBoundingBox_eval, if_neg (not_lt.mpr hpos)]
  · intro hh
    rw [getBoundingBox_eval]
    by_cases hs : axisScales sx sy sz a < 0
    · rw [if_pos hs]
      exact mul_le_mul_of_nonneg_right
        (mul_le_mul_of_nonpos_right (npMin_le_npMax _) hs.le) hh
    · rw [if_neg hs]
      push_neg at hs
      exact mul_le_mul_of_nonneg_right
        (mul_le_mul_of_nonneg_right (npMin_le_npMax _) hs) hh

/-- Witness for C9: scale `(-1, 1, 1)` on the concrete mesh `exMesh` swaps
the extrema of the x axis. -/
theorem getBoundingBox_negative_scale_witness :
    getBoundingBox 1 (-1) 1 1 exMesh 0 =
      (npMax (meshCoords exMesh 0) * axisScales (-1) 1 1 0 * 1,
       npMin (meshCoords exMesh 0) * axisScales (-1) 1 1 0 * 1) :=
  (getBoundingBox_negative_scale 1 (-1) 1 1 exMesh 0).1 (by norm_num [axisScales])

/-- C10: the gravity-only conversion of `replaceParamsInURDF` divides the
three moment entries of every stride-4 block by the mass entry with no
zero-mass guard; under the IEEE semantics of numpy a block whose mass
entry is exactly `0` therefore gets non-finite center-of-mass values (NaN
or signed infinity), never `(0,0,0)` — unlike the guarded full-mode
conversion `paramsLink2Bary`, which maps the center of mass of a link of
zero mass to exactly `0`. -/
theorem replaceParamsGravityBary_zero_mass_nonfinite (n : ℕ) (params : ℕ → FVal)
    (i r : ℕ) (hi : i % 4 = 0) (hr1 : 1 ≤ r) (hr3 : r ≤ 3) (hn : i + r < n)
    (hm : params i = FVal.fin 0) :
    (replaceParamsGravityBary n params (i + r)).isFinite = false ∧
    (∀ (nm n2 : ℕ) (q : ℕ → ℚ) (i2 : ℕ), i2 % 10 = 0 → i2 < nm → i2 < n2 →
      q i2 = 0 → paramsLink2Bary nm n2 q (i2 + r) = 0) := by
  constructor
  · have h4 : 4 * ((i + r) / 4) = i := by omega
    have hmod : ¬((i + r) % 4 = 0) := by omega
    simp only [replaceParamsGravityBary, h4]
    rw [if_pos ⟨hn, hmod⟩, hm]
    cases hv : params (i + r) with
    | fin q =>
      simp only [fdiv]
      rw [if_pos trivial]
      by_cases hq : q = 0
      · rw [if_pos hq]
        rfl
      · rw [if_neg hq]
        by_cases hq2 : 0 < q
        · rw [if_pos hq2]
          rfl
        · rw [if_neg hq2]
          rfl
    | nan => rfl
    | pinf => rfl
    | ninf => rfl
  · intro nm n2 q i2 h1 h2 h3 h4
    rw [paramsLink2Bary_com nm n2 q i2 r h1 hr1 hr3 h2 h3]
    simp [h4]

/-- Witness for C10 at the concrete vector `exFVec` (mass `fin 0`, moment
entries finite and nonzero): the first center-of-mass entry of the
converted block is not finite. -/
theorem replaceParamsGravityBary_zero_mass_nonfinite_witness :
    (replaceParamsGravityBary 4 exFVec (0 + 1)).isFinite = false :=
  (replaceParamsGravityBary_zero_mass_nonfinite 4 exFVec 0 1 (by norm_num)
    (by norm_num) (by norm_num) (by norm_num) rfl).1

end Helpers
